import Mathlib

/-
Verification of the colophon dependency-inventory scripts.

Shallow embedding of `fetch_deps.py` and `fetch_repos.py`.  HTTP traffic is
modelled as a list of environment events (a parsed response or a network
level exception); response bodies are modelled as already-parsed JSON
values.  `time.time()` is the parameter `now`; `random.uniform(0, 1)` is
the jitter stream `js` indexed by the number of backoff sleeps so far.
Retry loops are recursive functions over the event list; a run that
consumes every event before the source loop would have returned is marked
`outOfEvents`.  Each loop returns, besides its outcome, the list of sleep
durations it performed, in order.
-/

namespace Colophon

/-- An entry of the GraphQL `errors` array.  The code only inspects
`err.get("type") == "RATE_LIMITED"` (fetch_deps.py line 110), so an entry is
either rate-limited or anything else. -/
inductive GqlErr
  | rateLimited
  | other
deriving DecidableEq

/-- `licenseInfo` sub-object of a GraphQL dependency's repository
(fields `spdxId`, `name`, `url`; each may be JSON null). -/
structure LicenseInfo where
  spdxId : Option String
  name : Option String
  url : Option String
deriving DecidableEq

/-- `repository` sub-object of a GraphQL dependency node. -/
structure DepRepository where
  nameWithOwner : Option String
  licenseInfo : Option LicenseInfo
deriving DecidableEq

/-- A node of `dependencies.nodes` in the GraphQL reply.  The surrounding
list may also contain JSON nulls (`if not dep` in the source), modelled by
`Option DepNode` at the use site. -/
structure DepNode where
  packageName : Option String
  repository : Option DepRepository
deriving DecidableEq

/-- `dependencies` connection of one manifest; the code reads only
`.get("nodes", [])` (fetch_deps.py line 246). -/
structure DepConn where
  nodes : List (Option DepNode)
deriving DecidableEq

/-- One manifest node; the code reads `.get("dependencies", {})`. -/
structure Manifest where
  dependencies : Option DepConn
deriving DecidableEq

/-- `pageInfo` of the manifests connection; either key may be missing. -/
structure PageInfo where
  endCursor : Option String
  hasNextPage : Option Bool
deriving DecidableEq

/-- `dependencyGraphManifests` connection: `nodes` (default `[]`) and
`pageInfo` (default `{}`). -/
structure ManifestConn where
  nodes : List Manifest
  pageInfo : Option PageInfo
deriving DecidableEq

/-- `data.repository` node of the GraphQL reply. -/
structure RepoNode where
  dependencyGraphManifests : Option ManifestConn
deriving DecidableEq

/-- Parsed JSON body of a response.
`errors`  : the `errors` key, when present (GraphQL).
`dataField`: the `data` key, when present; `some none` means the key is
present but `repository` is absent or null (`not data["data"].get("repository")`).
`items`   : the payload when the body is a JSON array (REST listings).
A body that is not valid JSON is `none` at the use sites (`Option Body`). -/
structure Body where
  errors : Option (List GqlErr)
  dataField : Option (Option RepoNode)
  items : List String
deriving DecidableEq

/-- An HTTP response as the code observes it: status code, the three
rate-limit headers, the parsed body (none = body is not valid JSON), and
the `next` link relation from the `Link` header. -/
structure Response where
  status : ℕ
  remaining : Option ℤ
  reset : Option ℤ
  retryAfter : Option ℤ
  body : Option Body
  linkNext : Option String
deriving DecidableEq

/-- Result of `handle_api_retry`: the returned pair, or one of the two
exceptions it can raise.  `keyErr` is the uncaught `KeyError` when the
primary-limit branch reads the absent `X-RateLimit-Reset` header
(line 91); `jsonErr` is the `JSONDecodeError` (a `RequestException`)
raised by `response.json()` in the body-rate-limit condition (line 107). -/
inductive HRes
  | classified (shouldRetry : Bool) (sleepDuration : ℚ)
  | keyErr
  | jsonErr
deriving DecidableEq

/-- `handle_api_retry` (fetch_deps.py lines 76-117).  Classifies a response,
in source order: primary rate limit (403 with `X-RateLimit-Remaining` = 0),
secondary rate limit (429, or 403 with `Retry-After`), and the GraphQL
rate limit reported inside a 200 body.  `-1` is the exponential-backoff
sentinel. -/
def handle_api_retry (response : Response) (now : ℚ) : HRes :=
  if response.status = 403 ∧ response.remaining = some 0 then
    match response.reset with
    | some t => .classified true (max 0 ((t : ℚ) - now) + 5)
    | none => .keyErr
  else if response.status = 429 ∨ (response.status = 403 ∧ response.retryAfter ≠ none) then
    match response.retryAfter with
    | some ra => .classified true ((ra : ℚ) + 1)
    | none => .classified true (-1)
  else if response.status = 200 then
    match response.body with
    | none => .jsonErr
    | some b =>
      match b.errors with
      | some errs =>
        if errs.any (fun e => decide (e = GqlErr.rateLimited)) then .classified true (-1)
        else .classified false 0
      | none => .classified false 0
  else .classified false 0

/-- One environment event: a response to the request just issued, or a
network-level `RequestException` (connection error, timeout). -/
inductive ApiEvent
  | netErr
  | resp (r : Response)
deriving DecidableEq

/-- One exponential-backoff step (fetch_deps.py lines 167-170 and 217-222):
`sleep = base_delay * 2 ** retries + jitter; sleep = min(sleep, max_delay);
retries += 1` with `base_delay = 5`, `max_delay = 3600`.  Returns the sleep
duration and the new attempt counter.  Note the cap is applied after the
jitter is added. -/
def backoffStep (retries : ℕ) (jitter : ℚ) : ℚ × ℕ :=
  (min (5 * 2 ^ retries + jitter) 3600, retries + 1)

/-- Outcome of `get_repo_sbom`: the returned value (the successful
response, i.e. `response.json()`, or `None`), a crash from the uncaught
`KeyError`, or exhaustion of the modelled event list. -/
inductive SbomRes
  | done (doc : Option Response)
  | crash
  | outOfEvents
deriving DecidableEq

/-- `get_repo_sbom` (fetch_deps.py lines 152-187), as a function of the
event list, the current `retries` counter, the jitter index, the jitter
stream and `now`.  Returns the sleeps performed and the outcome.
A network exception returns `None` at once (lines 185-187); a 404/403 that
was not retry-classified returns `None`; any other status ≥ 400 raises in
`raise_for_status`, is caught by the same handler and returns `None`; a
success returns the parsed body (a success whose body is not valid JSON
raises in `response.json()` and also returns `None`). -/
def get_repo_sbom : List ApiEvent → ℕ → ℕ → (ℕ → ℚ) → ℚ → List ℚ × SbomRes
  | [], _, _, _, _ => ([], .outOfEvents)
  | .netErr :: _, _, _, _, _ => ([], .done none)
  | .resp r :: rest, retries, jIdx, js, now =>
    match handle_api_retry r now with
    | .keyErr => ([], .crash)
    | .jsonErr => ([], .done none)
    | .classified true d =>
      if d = -1 then
        let t := get_repo_sbom rest (retries + 1) (jIdx + 1) js now
        ((backoffStep retries (js jIdx)).1 :: t.1, t.2)
      else
        let t := get_repo_sbom rest 0 jIdx js now
        (d :: t.1, t.2)
    | .classified false _ =>
      if r.status = 404 ∨ r.status = 403 then ([], .done none)
      else if 400 ≤ r.status then ([], .done none)
      else
        match r.body with
        | none => ([], .done none)
        | some _ => ([], .done (some r))

/-- One license-cache entry (fetch_deps.py lines 254-259). -/
structure CacheEntry where
  spdxId : Option String
  name : Option String
  url : Option String
  repoName : Option String
deriving DecidableEq

/-- The license cache, keyed by package name.  Represented as an
association list where a later insertion is consed to the front, so lookup
sees the most recent binding, matching overwriting dict assignment. -/
abbrev Cache := List (String × CacheEntry)

/-- `graphql_cache.get(name)`. -/
def cacheGet (cache : Cache) (key : String) : Option CacheEntry :=
  match cache.find? (fun p => decide (p.1 = key)) with
  | some p => some p.2
  | none => none

/-- Processing of one dependency node (fetch_deps.py lines 246-259):
null nodes and nodes with a falsy `packageName` (absent, null, or the
empty string) are skipped; otherwise the cache entry for the package name
is overwritten. -/
def addDep (cache : Cache) (dep : Option DepNode) : Cache :=
  match dep with
  | none => cache
  | some d =>
    match d.packageName with
    | none => cache
    | some pkgName =>
      if pkgName = "" then cache
      else
        let licenseInfo : Option LicenseInfo :=
          match d.repository with
          | some repo => repo.licenseInfo
          | none => none
        let repoName : Option String :=
          match d.repository with
          | some repo => repo.nameWithOwner
          | none => none
        (pkgName, ⟨licenseInfo.bind LicenseInfo.spdxId, licenseInfo.bind LicenseInfo.name,
                   licenseInfo.bind LicenseInfo.url, repoName⟩) :: cache

/-- The two nested loops over one page's manifests and their dependency
nodes (fetch_deps.py lines 244-259). -/
def addManifestDeps (cache : Cache) (conn : ManifestConn) : Cache :=
  conn.nodes.foldl (fun c m => ((m.dependencies.getD ⟨[]⟩).nodes.foldl addDep c)) cache

/-- Outcome of `get_graphql_license_cache`: the returned mapping, a crash
from the uncaught `KeyError`, or exhaustion of the modelled event list. -/
inductive GqlRes
  | cache (c : Cache)
  | crash
  | outOfEvents
deriving DecidableEq

/-- `get_graphql_license_cache` (fetch_deps.py lines 190-270), as a
function of the event list, the `retries` counter, the jitter index and
stream, `now`, and the cache accumulated from earlier pages.  Every
failure path (`RequestException`, a non-retry status ≥ 400 via
`raise_for_status`, a body that is not valid JSON, `errors` with no
`data`, or an absent repository node) returns the literal empty dict,
discarding the accumulator.  The two source checks on lines 233-239 both
fire exactly when `data` is absent or the repository node is absent, which
is what the nested match encodes.  A successful page resets `retries` to 0
(line 231), folds its dependency nodes into the cache and continues while
`pageInfo.hasNextPage` is true. -/
def get_graphql_license_cache : List ApiEvent → ℕ → ℕ → (ℕ → ℚ) → ℚ → Cache → List ℚ × GqlRes
  | [], _, _, _, _, _ => ([], .outOfEvents)
  | .netErr :: _, _, _, _, _, _ => ([], .cache [])
  | .resp r :: rest, retries, jIdx, js, now, acc =>
    match handle_api_retry r now with
    | .keyErr => ([], .crash)
    | .jsonErr => ([], .cache [])
    | .classified true d =>
      if d = -1 then
        let t := get_graphql_license_cache rest (retries + 1) (jIdx + 1) js now acc
        ((backoffStep retries (js jIdx)).1 :: t.1, t.2)
      else
        let t := get_graphql_license_cache rest 0 jIdx js now acc
        (d :: t.1, t.2)
    | .classified false _ =>
      if 400 ≤ r.status then ([], .cache [])
      else
        match r.body with
        | none => ([], .cache [])
        | some b =>
          match b.dataField with
          | none => ([], .cache [])
          | some none => ([], .cache [])
          | some (some repoNode) =>
            let conn := repoNode.dependencyGraphManifests.getD ⟨[], none⟩
            let acc2 := addManifestDeps acc conn
            if ((conn.pageInfo.getD ⟨none, none⟩).hasNextPage.getD false) = true then
              get_graphql_license_cache rest 0 jIdx js now acc2
            else ([], .cache acc2)

/-- Outcome marker for the REST organization listing. -/
inductive OrgOutcome
  | finished
  | crash
  | outOfEvents
deriving DecidableEq

/-- Result of `get_all_organization_repos`: the URLs requested in order,
the sleeps performed, the accumulated repository items, and the outcome. -/
structure OrgRes where
  reqs : List String
  sleeps : List ℚ
  repos : List String
  outcome : OrgOutcome
deriving DecidableEq

/-- `get_all_organization_repos` (fetch_deps.py lines 120-149).  On a
retry classification it sleeps `sleep_duration if sleep_duration > 0 else
5` and re-issues the same URL; on a network exception (or any exception
raised from `raise_for_status` or `response.json()`) it breaks and returns
what it has; on success it appends the page's items and follows the `next`
link (the loop also stops on a falsy empty-string link). -/
def get_all_organization_repos : List ApiEvent → String → List String → ℚ → OrgRes
  | [], _, acc, _ => ⟨[], [], acc, .outOfEvents⟩
  | .netErr :: _, url, acc, _ => ⟨[url], [], acc, .finished⟩
  | .resp r :: rest, url, acc, now =>
    match handle_api_retry r now with
    | .keyErr => ⟨[url], [], acc, .crash⟩
    | .jsonErr => ⟨[url], [], acc, .finished⟩
    | .classified true d =>
      let t := get_all_organization_repos rest url acc now
      ⟨url :: t.reqs, (if 0 < d then d else 5) :: t.sleeps, t.repos, t.outcome⟩
    | .classified false _ =>
      if 400 ≤ r.status then ⟨[url], [], acc, .finished⟩
      else
        match r.body with
        | none => ⟨[url], [], acc, .finished⟩
        | some b =>
          let acc2 := acc ++ b.items
          match r.linkNext with
          | none => ⟨[url], [], acc2, .finished⟩
          | some u =>
            if u = "" then ⟨[url], [], acc2, .finished⟩
            else
              let t := get_all_organization_repos rest u acc2 now
              ⟨url :: t.reqs, t.sleeps, t.repos, t.outcome⟩

/-- Result of `make_api_request`: a successful response, the `None`
falling out of an exhausted attempt loop, a raised exception, or
exhaustion of the modelled events. -/
inductive ApiReqRes
  | ok (r : Response)
  | noneRet
  | raised
  | outOfEvents
deriving DecidableEq

/-- `make_api_request` (fetch_repos.py lines 60-105).  Each loop iteration
consumes one attempt and one event.  A `Retry-After` header (any status)
sleeps and retries; a primary rate limit (403 with remaining 0) sleeps
`max(reset - now, 0) + 5` (reset defaults to `int(now + 60)`) and retries;
any other status ≥ 400 raises in `raise_for_status`, is caught by the
`RequestException` handler and retried with exponential backoff
`2 ** attempt`, as is a network exception — except on the final attempt,
where the exception is re-raised.  If all attempts are consumed by
rate-limit continues the loop falls through and returns `None`. -/
def make_api_request : List ApiEvent → ℕ → ℕ → ℚ → List ℚ × ApiReqRes
  | [], attempt, maxRetries, _ =>
    if maxRetries ≤ attempt then ([], .noneRet) else ([], .outOfEvents)
  | .netErr :: rest, attempt, maxRetries, now =>
    if maxRetries ≤ attempt then ([], .noneRet)
    else if attempt < maxRetries - 1 then
      let t := make_api_request rest (attempt + 1) maxRetries now
      (((2 : ℚ) ^ attempt) :: t.1, t.2)
    else ([], .raised)
  | .resp r :: rest, attempt, maxRetries, now =>
    if maxRetries ≤ attempt then ([], .noneRet)
    else
      match r.retryAfter with
      | some w =>
        let t := make_api_request rest (attempt + 1) maxRetries now
        ((w : ℚ) :: t.1, t.2)
      | none =>
        if r.status = 403 ∧ r.remaining = some 0 then
          let resetTime : ℚ := ((r.reset.getD (⌊now⌋ + 60) : ℤ) : ℚ)
          let t := make_api_request rest (attempt + 1) maxRetries now
          ((max (resetTime - now) 0 + 5) :: t.1, t.2)
        else if 400 ≤ r.status then
          if attempt < maxRetries - 1 then
            let t := make_api_request rest (attempt + 1) maxRetries now
            (((2 : ℚ) ^ attempt) :: t.1, t.2)
          else ([], .raised)
        else ([], .ok r)

/-- Outcome of `get_paginated_data`: normal return with the collected
items, a propagated exception (nothing is returned to the caller), or
exhaustion of the modelled events. -/
inductive PagOutcome
  | finished (items : List String)
  | raised
  | outOfEvents
deriving DecidableEq

/-- `get_paginated_data` (fetch_repos.py lines 108-137).  One entry of the
outer list is the attempt-event list handed to one `make_api_request`
call.  A raise from `make_api_request` propagates uncaught (the collected
items are lost); a `None` return breaks and returns the collected items; a
success appends the page's items (a body that is not valid JSON raises in
`response.json()`, also uncaught) and follows the `next` link.  The first
component counts the `make_api_request` calls issued. -/
def get_paginated_data : List (List ApiEvent) → ℚ → List String → ℕ × PagOutcome
  | [], _, _ => (0, .outOfEvents)
  | evs :: rest, now, acc =>
    match (make_api_request evs 0 5 now).2 with
    | .raised => (1, .raised)
    | .noneRet => (1, .finished acc)
    | .outOfEvents => (1, .outOfEvents)
    | .ok r =>
      match r.body with
      | none => (1, .raised)
      | some b =>
        let acc2 := acc ++ b.items
        match r.linkNext with
        | none => (1, .finished acc2)
        | some u =>
          if u = "" then (1, .finished acc2)
          else
            let t := get_paginated_data rest now acc2
            (t.1 + 1, t.2)

/-- One entry of a package's `externalRefs` array. -/
structure ExternalRef where
  referenceType : Option String
  referenceLocator : Option String
deriving DecidableEq

/-- One entry of the SBOM `relationships` array. -/
structure Relationship where
  relationshipType : Option String
  relatedSpdxElement : Option String
deriving DecidableEq

/-- One SBOM package record; every field the code reads may be absent. -/
structure SbomPackage where
  SPDXID : Option String
  name : Option String
  versionInfo : Option String
  licenseConcluded : Option String
  externalRefs : Option (List ExternalRef)
deriving DecidableEq

/-- The `sbom` object: `packages` and `relationships` (each defaulting to
`[]` when the key is absent). -/
structure Sbom where
  packages : List SbomPackage
  relationships : List Relationship
deriving DecidableEq

/-- One output row (fetch_deps.py lines 332-341), in column order. -/
structure Row where
  depName : String
  depVersion : String
  repoUrl : String
  license : String
  purl : String
  pkgManager : String
  depRepoName : String
  depLicenseUrl : String
deriving DecidableEq

/-- Attempt to match the regex `pkg:([^/]+)/` at the head of the character
list: the literal `pkg:`, then a maximal nonempty run of non-slash
characters which must be followed by a slash. -/
def purlMatchAt (l : List Char) : Option String :=
  match l with
  | 'p' :: 'k' :: 'g' :: ':' :: t =>
    let run := t.takeWhile (fun c => c != '/')
    if run.length = 0 then none
    else if run.length < t.length then some (String.mk run)
    else none
  | _ => none

/-- `re.search(r"pkg:([^/]+)/", purl)`: the leftmost position where the
pattern matches, returning group 1. -/
def purlManagerSearch : List Char → Option String
  | [] => none
  | c :: cs =>
    match purlMatchAt (c :: cs) with
    | some m => some m
    | none => purlManagerSearch cs

/-- `repo_spdx_id` (fetch_deps.py lines 288-292): the `relatedSpdxElement`
of the first relationship typed `DESCRIBES` (which may itself be absent,
i.e. `None`), or the initial empty string when there is none. -/
def describesTarget (sbom : Sbom) : Option String :=
  match sbom.relationships.find? (fun rel => decide (rel.relationshipType = some "DESCRIBES")) with
  | some rel => rel.relatedSpdxElement
  | none => some ""

/-- Construction of one output row from one package (fetch_deps.py lines
298-341).  Missing `name`/`versionInfo`/`licenseConcluded` default to
`"N/A"`.  The first external reference typed `purl` supplies the locator;
the package manager comes from the regex when the locator starts with
`pkg:`.  When the declared license is exactly `"N/A"` or `"NOASSERTION"`
and a cache entry exists, the repo name and license URL are taken from the
entry when truthy (`or "N/A"` maps null and the empty string to `"N/A"`),
and the license is replaced by a truthy spdxId outside
{`N/A`, `NOASSERTION`}, or by `"NOASSERTION (Other)"` when the spdxId is
`NOASSERTION` and the entry name is `Other`. -/
def packageRow (graphql_cache : Cache) (repo_url : String) (package : SbomPackage) : Row :=
  let name := package.name.getD "N/A"
  let version := package.versionInfo.getD "N/A"
  let license0 := package.licenseConcluded.getD "N/A"
  let purl : String :=
    match package.externalRefs with
    | none => "N/A"
    | some refs =>
      match refs.find? (fun ref => decide (ref.referenceType = some "purl")) with
      | none => "N/A"
      | some ref => ref.referenceLocator.getD "N/A"
  let pkgManager : String :=
    if purl.startsWith "pkg:" then (purlManagerSearch purl.data).getD "N/A"
    else "N/A"
  let enriched : String × String × String :=
    if license0 = "N/A" ∨ license0 = "NOASSERTION" then
      match cacheGet graphql_cache name with
      | some gqlData =>
        let depRepoName :=
          match gqlData.repoName with
          | some s => if s = "" then "N/A" else s
          | none => "N/A"
        let depLicenseUrl :=
          match gqlData.url with
          | some s => if s = "" then "N/A" else s
          | none => "N/A"
        let license :=
          match gqlData.spdxId with
          | some s =>
            if s ≠ "" ∧ s ≠ "N/A" ∧ s ≠ "NOASSERTION" then s
            else if s = "NOASSERTION" ∧ gqlData.name = some "Other" then "NOASSERTION (Other)"
            else license0
          | none => license0
        (license, depRepoName, depLicenseUrl)
      | none => (license0, "N/A", "N/A")
    else (license0, "N/A", "N/A")
  ⟨name, version, repo_url, enriched.1, purl, pkgManager, enriched.2.1, enriched.2.2⟩

/-- The package loop of `parse_sbom_data` (fetch_deps.py lines 294-341):
skip the package whose `SPDXID` equals the computed self id, emit one row
for every other package, in order. -/
def parsePackages (repoSpdxId : Option String) (graphql_cache : Cache) (repo_url : String) :
    List SbomPackage → List Row
  | [] => []
  | package :: rest =>
    if package.SPDXID = repoSpdxId then
      parsePackages repoSpdxId graphql_cache repo_url rest
    else
      packageRow graphql_cache repo_url package ::
        parsePackages repoSpdxId graphql_cache repo_url rest

/-- `parse_sbom_data` (fetch_deps.py lines 273-343).  `none` stands for a
falsy `sbom_data` or one without an `"sbom"` key. -/
def parse_sbom_data (sbom_data : Option Sbom) (repo_url : String) (graphql_cache : Cache) :
    List Row :=
  match sbom_data with
  | none => []
  | some sbom => parsePackages (describesTarget sbom) graphql_cache repo_url sbom.packages

/-! ### Sample values used by closed theorems -/

/-- A 429 response with no headers: classified as a retry with the
exponential-backoff sentinel. -/
def r429 : Response := ⟨429, none, none, none, none, none⟩

/-- A plain successful response with an empty JSON-object body. -/
def okSbomResp : Response := ⟨200, none, none, none, some ⟨none, none, []⟩, none⟩

/-- A sample license-cache entry. -/
def sampleEntry : CacheEntry :=
  ⟨some "MIT", some "MIT License", some "https://spdx.org/licenses/MIT", some "acme/left-pad"⟩

/-! ### Theorems -/

theorem parsePackages_eq (t : Option String) (graphql_cache : Cache) (repo_url : String) :
    ∀ pkgs : List SbomPackage,
      parsePackages t graphql_cache repo_url pkgs
        = (pkgs.filter fun p => decide (p.SPDXID ≠ t)).map (packageRow graphql_cache repo_url) := by
  intro pkgs
  induction pkgs with
  | nil => rfl
  | cons p ps ih =>
    by_cases h : p.SPDXID = t
    · simp [parsePackages, h, ih]
    · simp [parsePackages, h, ih]

/-- Claim C9: the package whose `SPDXID` equals the target of the
document's `DESCRIBES` relationship (the first such relationship, as the
code computes it) yields no output row; every other package yields exactly
one row, in SBOM document order.  The emitted rows are exactly the
filter of the package list by that test, mapped through the row builder. -/
theorem C9_self_exclusion (sbom : Sbom) (repo_url : String) (graphql_cache : Cache) :
    parse_sbom_data (some sbom) repo_url graphql_cache
      = (sbom.packages.filter fun p => decide (p.SPDXID ≠ describesTarget sbom)).map
          (packageRow graphql_cache repo_url) :=
  parsePackages_eq (describesTarget sbom) graphql_cache repo_url sbom.packages

/-- Claim C10: a package missing `name`, `versionInfo` or
`licenseConcluded` gets the literal `"N/A"` in the corresponding column,
and a package with no `licenseConcluded` at all is enriched exactly as if
it had declared the license `"N/A"` (the row is identical to the row of
the same package with `licenseConcluded = "N/A"`); in particular with no
cache entry its license column is `"N/A"`. -/
theorem C10_missing_fields (graphql_cache : Cache) (repo_url : String) (package : SbomPackage) :
    (package.name = none → (packageRow graphql_cache repo_url package).depName = "N/A") ∧
    (package.versionInfo = none → (packageRow graphql_cache repo_url package).depVersion = "N/A") ∧
    (package.licenseConcluded = none →
        packageRow graphql_cache repo_url package
          = packageRow graphql_cache repo_url { package with licenseConcluded := some "N/A" }) ∧
    (package.licenseConcluded = none →
        cacheGet graphql_cache (package.name.getD "N/A") = none →
        (packageRow graphql_cache repo_url package).license = "N/A") := by
  refine ⟨fun h => ?_, fun h => ?_, fun h => ?_, fun h hc => ?_⟩
  · simp [packageRow, h]
  · simp [packageRow, h]
  · simp [packageRow, h]
  · simp [packageRow, h, hc]

/-- A package record with only an `SPDXID`, used as the C10 witness. -/
def pkgBare : SbomPackage := ⟨some "SPDXRef-x", none, none, none, none⟩

/-- Witness for C10 at a concrete package missing all three fields. -/
theorem C10_missing_fields_witness :
    (packageRow [] "https://example" pkgBare).depName = "N/A" ∧
    (packageRow [] "https://example" pkgBare).depVersion = "N/A" ∧
    packageRow [] "https://example" pkgBare
      = packageRow [] "https://example" { pkgBare with licenseConcluded := some "N/A" } ∧
    (packageRow [] "https://example" pkgBare).license = "N/A" := by
  have h := C10_missing_fields [] "https://example" pkgBare
  exact ⟨h.1 rfl, h.2.1 rfl, h.2.2.1 rfl, h.2.2.2 rfl rfl⟩

/-- Claim C5 counterexample: the claim says a transient network failure is
retried with exponential backoff before the operation degrades.  In the
code the very first `RequestException` returns at once: the SBOM fetch
performs no sleep and never issues the follow-up request (whose response,
supplied next in the event list, would have succeeded — second conjunct),
and the GraphQL build likewise returns the empty cache at once even with
entries already collected. -/
theorem C5_counterexample :
    get_repo_sbom [ApiEvent.netErr, ApiEvent.resp okSbomResp] 0 0 (fun _ => 0) 0
        = ([], .done none) ∧
    (get_repo_sbom [ApiEvent.resp okSbomResp] 0 0 (fun _ => 0) 0).2 = .done (some okSbomResp) ∧
    get_graphql_license_cache [ApiEvent.netErr, ApiEvent.resp okSbomResp] 0 0 (fun _ => 0) 0
        [("left-pad", sampleEntry)] = ([], .cache []) :=
  ⟨rfl, rfl, rfl⟩

/-- Claim C5 (amended): a transient network failure is NOT retried — it
immediately terminates the SBOM fetch with `None` and the GraphQL cache
build with the empty mapping, with no backoff sleep, regardless of the
attempt counter, the remaining events or the entries already collected;
exponential backoff applies only to rate-limit classifications. -/
theorem C5_network_degrade (rest : List ApiEvent) (retries jIdx : ℕ) (js : ℕ → ℚ) (now : ℚ)
    (acc : Cache) :
    get_repo_sbom (ApiEvent.netErr :: rest) retries jIdx js now = ([], .done none) ∧
    get_graphql_license_cache (ApiEvent.netErr :: rest) retries jIdx js now acc
      = ([], .cache []) :=
  ⟨rfl, rfl⟩

/-- Claim C2: `handle_api_retry` classification in precedence order.  A
403 with `X-RateLimit-Remaining = 0` and reset header `T` yields a retry
with delay `max(0, T - now) + 5`.  Otherwise a 429, or a 403 with a
`Retry-After` header, yields a retry whose delay is `Retry-After + 1` when
the header is present and the backoff sentinel `-1` when absent.  The last
two conjuncts show the same request is then reissued: the SBOM loop (whose
URL is fixed) continues with the remaining events, performing the backoff
sleep and incrementing the counter on the sentinel, or sleeping the
explicit delay and resetting the counter otherwise. -/
theorem C2_classification (r : Response) (now : ℚ) :
    (∀ t : ℤ, r.status = 403 → r.remaining = some 0 → r.reset = some t →
        handle_api_retry r now = .classified true (max 0 ((t : ℚ) - now) + 5)) ∧
    (¬(r.status = 403 ∧ r.remaining = some 0) →
      (r.status = 429 ∨ (r.status = 403 ∧ r.retryAfter ≠ none)) →
        (∀ a : ℤ, r.retryAfter = some a →
            handle_api_retry r now = .classified true ((a : ℚ) + 1)) ∧
        (r.retryAfter = none → handle_api_retry r now = .classified true (-1))) ∧
    (∀ (rest : List ApiEvent) (retries jIdx : ℕ) (js : ℕ → ℚ),
        handle_api_retry r now = .classified true (-1) →
        get_repo_sbom (ApiEvent.resp r :: rest) retries jIdx js now
          = ((backoffStep retries (js jIdx)).1
                :: (get_repo_sbom rest (retries + 1) (jIdx + 1) js now).1,
             (get_repo_sbom rest (retries + 1) (jIdx + 1) js now).2)) ∧
    (∀ (rest : List ApiEvent) (retries jIdx : ℕ) (js : ℕ → ℚ) (d : ℚ),
        handle_api_retry r now = .classified true d → d ≠ -1 →
        get_repo_sbom (ApiEvent.resp r :: rest) retries jIdx js now
          = (d :: (get_repo_sbom rest 0 jIdx js now).1,
             (get_repo_sbom rest 0 jIdx js now).2)) := by
  refine ⟨fun t h403 hrem hreset => ?_, fun h1 h2 => ⟨fun a ha => ?_, fun ha => ?_⟩,
          fun rest retries jIdx js hh => ?_, fun rest retries jIdx js d hh hne => ?_⟩
  · unfold handle_api_retry
    rw [if_pos ⟨h403, hrem⟩, hreset]
  · unfold handle_api_retry
    rw [if_neg h1, if_pos h2, ha]
  · unfold handle_api_retry
    rw [if_neg h1, if_pos h2, ha]
  · simp [get_repo_sbom, hh]
  · simp [get_repo_sbom, hh, hne]

/-- A 403 response with primary rate limit exhausted and reset time 100. -/
def rPrimary : Response := ⟨403, some 0, some 100, none, none, none⟩

/-- A 429 response with `Retry-After: 7`. -/
def rSecondary : Response := ⟨429, none, none, some 7, none, none⟩

/-- Witness for C2 at concrete responses: primary limit at `now = 40`
gives delay 65; `Retry-After: 7` gives delay 8; a bare 429 makes the SBOM
loop sleep the backoff delay 5 and consume the next event. -/
theorem C2_classification_witness :
    handle_api_retry rPrimary 40 = .classified true 65 ∧
    handle_api_retry rSecondary 0 = .classified true 8 ∧
    get_repo_sbom [ApiEvent.resp r429] 0 0 (fun _ => 0) 0 = ([5], .outOfEvents) := by
  have h1 := (C2_classification rPrimary 40).1 100 rfl rfl rfl
  have h2 := ((C2_classification rSecondary 0).2.1 (by decide) (Or.inl rfl)).1 7 rfl
  have h3 := (C2_classification r429 0).2.2.1 [] 0 0 (fun _ => 0)
    (by unfold handle_api_retry r429; norm_num)
  refine ⟨?_, ?_, ?_⟩
  · rw [h1]; norm_num
  · rw [h2]; norm_num
  · rw [h3]; norm_num [backoffStep, get_repo_sbom]

/-- A package declaring license `"N/A"`, named `left-pad`. -/
def pkgDeclaredNA : SbomPackage :=
  ⟨some "SPDXRef-left-pad", some "left-pad", some "1.0.0", some "N/A", none⟩

/-- A cache whose entry for `left-pad` has the empty string as `spdxId`. -/
def cacheEmptySpdx : Cache :=
  [("left-pad", ⟨some "", some "Other", some "https://example/license", some "acme/left-pad"⟩)]

/-- Claim C3 counterexample: the claim says that when the declared license
triggers enrichment and the cache entry's `spdxId` is present and not in
{`N/A`, `NOASSERTION`}, the output license is that `spdxId`.  For the
entry whose `spdxId` is the present empty string — which is outside that
set — the claim predicts the output license `""`, but the code's
truthiness test `if gql_spdx and ...` (line 327) rejects the empty string
and keeps the declared license `"N/A"`. -/
theorem C3_counterexample :
    (packageRow cacheEmptySpdx "https://example" pkgDeclaredNA).license = "N/A" ∧
    ¬((packageRow cacheEmptySpdx "https://example" pkgDeclaredNA).license = "") := by
  refine ⟨?_, ?_⟩ <;> simp [packageRow, pkgDeclaredNA, cacheEmptySpdx, cacheGet]

/-- Claim C3 (amended): for a package whose declared license (defaulted to
`"N/A"`) is exactly `"N/A"` or `"NOASSERTION"` and whose name has a cache
entry: if the entry's `spdxId` is present, non-empty and not in
{`N/A`, `NOASSERTION`} the output license is that `spdxId`; else if the
`spdxId` is `"NOASSERTION"` and the entry's license name is exactly
`"Other"` the output license is `"NOASSERTION (Other)"`; otherwise
(absent, empty, `"N/A"`, or `"NOASSERTION"` without name `"Other"`) the
declared license is kept.  For any other declared license the cache is
never consulted (the row equals the row computed with the empty cache)
and the license is emitted unchanged. -/
theorem C3_enrichment (graphql_cache : Cache) (repo_url : String) (package : SbomPackage) :
    ((package.licenseConcluded.getD "N/A" = "N/A"
        ∨ package.licenseConcluded.getD "N/A" = "NOASSERTION") →
      ∀ e, cacheGet graphql_cache (package.name.getD "N/A") = some e →
        (∀ s, e.spdxId = some s → s ≠ "" → s ≠ "N/A" → s ≠ "NOASSERTION" →
            (packageRow graphql_cache repo_url package).license = s) ∧
        (e.spdxId = some "NOASSERTION" → e.name = some "Other" →
            (packageRow graphql_cache repo_url package).license = "NOASSERTION (Other)") ∧
        ((e.spdxId = none ∨ e.spdxId = some "" ∨ e.spdxId = some "N/A"
            ∨ (e.spdxId = some "NOASSERTION" ∧ e.name ≠ some "Other")) →
            (packageRow graphql_cache repo_url package).license
              = package.licenseConcluded.getD "N/A")) ∧
    ((package.licenseConcluded.getD "N/A" ≠ "N/A"
        ∧ package.licenseConcluded.getD "N/A" ≠ "NOASSERTION") →
      packageRow graphql_cache repo_url package = packageRow [] repo_url package ∧
      (packageRow graphql_cache repo_url package).license
        = package.licenseConcluded.getD "N/A") := by
  constructor
  · intro hlic e he
    refine ⟨fun s hs hs1 hs2 hs3 => ?_, fun hs hn => ?_, fun hother => ?_⟩
    · simp [packageRow, hlic, he, hs, hs1, hs2, hs3]
    · simp [packageRow, hlic, he, hs, hn]
    · rcases hother with h | h | h | ⟨h, hn⟩
      · simp [packageRow, hlic, he, h]
      · simp [packageRow, hlic, he, h]
      · simp [packageRow, hlic, he, h]
      · simp [packageRow, hlic, he, h, hn]
  · intro ⟨h1, h2⟩
    constructor <;> simp [packageRow, h1, h2]

/-- A package declaring license `"NOASSERTION"`, named `left-pad`. -/
def pkgDeclaredNoAssert : SbomPackage :=
  ⟨some "SPDXRef-left-pad", some "left-pad", some "1.0.0", some "NOASSERTION", none⟩

/-- A cache mapping `left-pad` to the entry
`{spdxId: NOASSERTION, name: Other}`. -/
def cacheNoAssertOther : Cache :=
  [("left-pad", ⟨some "NOASSERTION", some "Other", none, none⟩)]

/-- A package declaring license `"MIT"`, named `left-pad`. -/
def pkgDeclaredMIT : SbomPackage :=
  ⟨some "SPDXRef-left-pad", some "left-pad", some "1.0.0", some "MIT", none⟩

/-- Witness for C3: the spec's own test vectors.  Entry
`{spdxId: NOASSERTION, name: Other}` turns a declared `"NOASSERTION"` into
`"NOASSERTION (Other)"`; a cache entry with `spdxId = "MIT"` replaces a
declared `"N/A"`; a declared `"MIT"` ignores the cache. -/
theorem C3_enrichment_witness :
    (packageRow cacheNoAssertOther "https://example" pkgDeclaredNoAssert).license
        = "NOASSERTION (Other)" ∧
    (packageRow [("left-pad", sampleEntry)] "https://example" pkgDeclaredNA).license = "MIT" ∧
    (packageRow [("left-pad", sampleEntry)] "https://example" pkgDeclaredMIT).license = "MIT" ∧
    packageRow [("left-pad", sampleEntry)] "https://example" pkgDeclaredMIT
      = packageRow [] "https://example" pkgDeclaredMIT := by
  have h1 := ((C3_enrichment cacheNoAssertOther "https://example" pkgDeclaredNoAssert).1
      (Or.inr rfl) ⟨some "NOASSERTION", some "Other", none, none⟩ rfl).2.1 rfl rfl
  have h2 := ((C3_enrichment [("left-pad", sampleEntry)] "https://example" pkgDeclaredNA).1
      (Or.inl rfl) sampleEntry rfl).1 "MIT" rfl (by decide) (by decide) (by decide)
  have h3 := (C3_enrichment [("left-pad", sampleEntry)] "https://example" pkgDeclaredMIT).2
      ⟨by decide, by decide⟩
  exact ⟨h1, h2, h3.2, h3.1⟩

/-- A cache whose entry for `left-pad` has empty-string `url` and
`repoName` fields. -/
def cacheEmptyUrl : Cache :=
  [("left-pad", ⟨some "MIT", some "MIT License", some "", some ""⟩)]

/-- Claim C8 counterexample: the claim says the dependency repo name and
license URL are taken from the cache entry when present.  For the entry
whose `repoName` and `url` are the present empty string, the claim
predicts both output fields `""`, but the code's `or "N/A"` (lines
324-325) maps the falsy empty string to `"N/A"`. -/
theorem C8_counterexample :
    (packageRow cacheEmptyUrl "https://example" pkgDeclaredNA).depRepoName = "N/A" ∧
    (packageRow cacheEmptyUrl "https://example" pkgDeclaredNA).depLicenseUrl = "N/A" ∧
    ¬((packageRow cacheEmptyUrl "https://example" pkgDeclaredNA).depLicenseUrl = "") := by
  refine ⟨?_, ?_, ?_⟩ <;> simp [packageRow, pkgDeclaredNA, cacheEmptyUrl, cacheGet]

/-- Claim C8 (amended): when the declared license triggers enrichment and
a cache entry exists, the output row's dependency repo name and license
URL are the entry's `repoName` and `url` when present and non-empty, and
`"N/A"` when absent or empty — independently of the license-replacement
branch (the entry's `spdxId` and `name` are arbitrary here). -/
theorem C8_cache_fields (graphql_cache : Cache) (repo_url : String) (package : SbomPackage)
    (e : CacheEntry)
    (hlic : package.licenseConcluded.getD "N/A" = "N/A"
        ∨ package.licenseConcluded.getD "N/A" = "NOASSERTION")
    (he : cacheGet graphql_cache (package.name.getD "N/A") = some e) :
    (∀ s, e.repoName = some s → s ≠ "" →
        (packageRow graphql_cache repo_url package).depRepoName = s) ∧
    ((e.repoName = none ∨ e.repoName = some "") →
        (packageRow graphql_cache repo_url package).depRepoName = "N/A") ∧
    (∀ s, e.url = some s → s ≠ "" →
        (packageRow graphql_cache repo_url package).depLicenseUrl = s) ∧
    ((e.url = none ∨ e.url = some "") →
        (packageRow graphql_cache repo_url package).depLicenseUrl = "N/A") := by
  refine ⟨fun s hs hne => ?_, fun hs => ?_, fun s hs hne => ?_, fun hs => ?_⟩
  · simp [packageRow, hlic, he, hs, hne]
  · rcases hs with h | h <;> simp [packageRow, hlic, he, h]
  · simp [packageRow, hlic, he, hs, hne]
  · rcases hs with h | h <;> simp [packageRow, hlic, he, h]

/-- Witness for C8: with the sample entry (`repoName = "acme/left-pad"`,
`url = "https://spdx.org/licenses/MIT"`) both fields are carried into the
row of a package declaring `"N/A"`. -/
theorem C8_cache_fields_witness :
    (packageRow [("left-pad", sampleEntry)] "https://example" pkgDeclaredNA).depRepoName
        = "acme/left-pad" ∧
    (packageRow [("left-pad", sampleEntry)] "https://example" pkgDeclaredNA).depLicenseUrl
        = "https://spdx.org/licenses/MIT" := by
  have h := C8_cache_fields [("left-pad", sampleEntry)] "https://example" pkgDeclaredNA
    sampleEntry (Or.inl rfl) rfl
  exact ⟨h.1 "acme/left-pad" rfl (by decide), h.2.2.1 "https://spdx.org/licenses/MIT" rfl (by decide)⟩

theorem sbom_backoff_trace (now : ℚ) (js : ℕ → ℚ) :
    ∀ (evs rest : List ApiEvent) (retries jIdx : ℕ),
      (∀ x ∈ evs, ∃ r, x = ApiEvent.resp r ∧ handle_api_retry r now = .classified true (-1)) →
      get_repo_sbom (evs ++ rest) retries jIdx js now
        = (((List.range evs.length).map
              fun i => min (5 * 2 ^ (retries + i) + js (jIdx + i)) 3600)
            ++ (get_repo_sbom rest (retries + evs.length) (jIdx + evs.length) js now).1,
           (get_repo_sbom rest (retries + evs.length) (jIdx + evs.length) js now).2) := by
  intro evs
  induction evs with
  | nil => intro rest retries jIdx _; simp
  | cons x evs ih =>
    intro rest retries jIdx h
    obtain ⟨r, hx, hr⟩ := h x (List.mem_cons_self x evs)
    subst hx
    have step : get_repo_sbom (ApiEvent.resp r :: (evs ++ rest)) retries jIdx js now
        = ((backoffStep retries (js jIdx)).1
              :: (get_repo_sbom (evs ++ rest) (retries + 1) (jIdx + 1) js now).1,
           (get_repo_sbom (evs ++ rest) (retries + 1) (jIdx + 1) js now).2) := by
      simp [get_repo_sbom, hr]
    have hrec := ih rest (retries + 1) (jIdx + 1)
      (fun y hy => h y (List.mem_cons_of_mem _ hy))
    have harg : ∀ a i : ℕ, a + 1 + i = a + (i + 1) := fun a i => by omega
    rw [List.cons_append, step, hrec]
    simp only [List.length_cons, List.range_succ_eq_map, List.map_cons, List.map_map,
      Function.comp, Nat.succ_eq_add_one, backoffStep, harg]
    simp

/-- Claim C1 counterexample: the claim's formula for the i-th consecutive
backoff delay is `min(3600, 5 * 2^i) + jitter`; with jitter 1/2 it
predicts 3600.5 at i = 10.  The code (lines 168-169) adds the jitter
before applying the cap, so the 11th consecutive backoff sleep of the
SBOM loop is exactly 3600. -/
theorem C1_counterexample :
    (get_repo_sbom (List.replicate 11 (ApiEvent.resp r429)) 0 0
        (fun _ => (1 : ℚ)/2) 0).1.get? 10 = some 3600 ∧
    ¬((3600 : ℚ) = min 3600 (5 * 2 ^ 10) + 1/2) := by
  have hr429 : handle_api_retry r429 0 = .classified true (-1) := by
    unfold handle_api_retry r429; norm_num
  have h := sbom_backoff_trace 0 (fun _ => (1 : ℚ)/2)
    (List.replicate 11 (ApiEvent.resp r429)) [] 0 0
    (fun x hx => ⟨r429, List.eq_of_mem_replicate hx, hr429⟩)
  constructor
  · have h1 := congrArg Prod.fst h
    have hnil : (get_repo_sbom ([] : List ApiEvent) 11 11 (fun _ => (1 : ℚ)/2) 0).1 = [] := rfl
    simp only [List.append_nil, List.length_replicate, Nat.zero_add] at h1
    rw [hnil, List.append_nil] at h1
    rw [h1, List.get?_map, List.get?_range (by norm_num : (10 : ℕ) < 11)]
    simp only [Option.map_some']
    rw [min_eq_right (by norm_num : (3600 : ℚ) ≤ 5 * 2 ^ 10 + (1 : ℚ)/2)]
  · rw [min_eq_left (by norm_num : (3600 : ℚ) ≤ 5 * 2 ^ 10)]
    norm_num

/-- Claim C1 (amended): within one maximal run of consecutive
exponential-backoff retries starting from a reset counter, the i-th delay
(i from 0) is `min(5 * 2^i + jitter_i, 3600)` — the cap is applied after
the jitter — hence strictly below 3601; the counter is incremented exactly
once per backoff retry (the run of k backoff events leaves the loop at
counter k); every delay is positive; an explicitly delayed retry resets
the counter to 0, and a successful GraphQL page — a non-retry outcome that
keeps the loop running — also resets it to 0, per line 231 (last
conjunct). -/
theorem C1_backoff_run (now : ℚ) (js : ℕ → ℚ) (hjs : ∀ i, 0 ≤ js i ∧ js i < 1) :
    (∀ evs rest : List ApiEvent,
        (∀ x ∈ evs, ∃ r, x = ApiEvent.resp r ∧ handle_api_retry r now = .classified true (-1)) →
        get_repo_sbom (evs ++ rest) 0 0 js now
          = (((List.range evs.length).map fun i => min (5 * 2 ^ i + js i) 3600)
              ++ (get_repo_sbom rest evs.length evs.length js now).1,
             (get_repo_sbom rest evs.length evs.length js now).2)) ∧
    (∀ i, min (5 * 2 ^ i + js i) 3600 < 3601) ∧
    (∀ i, 0 < min (5 * 2 ^ i + js i) 3600) ∧
    (∀ (r : Response) (rest : List ApiEvent) (retries jIdx : ℕ) (d : ℚ),
        handle_api_retry r now = .classified true d → d ≠ -1 →
        get_repo_sbom (ApiEvent.resp r :: rest) retries jIdx js now
          = (d :: (get_repo_sbom rest 0 jIdx js now).1, (get_repo_sbom rest 0 jIdx js now).2)) ∧
    (∀ (r : Response) (rest : List ApiEvent) (retries jIdx : ℕ) (acc : Cache) (b : Body)
        (repoNode : RepoNode),
        handle_api_retry r now = .classified false 0 → ¬400 ≤ r.status →
        r.body = some b → b.dataField = some (some repoNode) →
        ((repoNode.dependencyGraphManifests.getD ⟨[], none⟩).pageInfo.getD
            ⟨none, none⟩).hasNextPage.getD false = true →
        get_graphql_license_cache (ApiEvent.resp r :: rest) retries jIdx js now acc
          = get_graphql_license_cache rest 0 jIdx js now
              (addManifestDeps acc (repoNode.dependencyGraphManifests.getD ⟨[], none⟩))) := by
  refine ⟨fun evs rest h => ?_, fun i => ?_, fun i => ?_,
          fun r rest retries jIdx d hh hne => ?_,
          fun r rest retries jIdx acc b repoNode hh hst hb hdf hnext => ?_⟩
  · simpa using sbom_backoff_trace now js evs rest 0 0 h
  · exact lt_of_le_of_lt (min_le_right _ _) (by norm_num)
  · have h0 : (0 : ℚ) ≤ js i := (hjs i).1
    have h5 : (0 : ℚ) < 5 * 2 ^ i := by positivity
    exact lt_min (by linarith) (by norm_num)
  · simp [get_repo_sbom, hh, hne]
  · simp [get_graphql_license_cache, hh, hst, hb, hdf, hnext]

/-- Witness for C1 at one concrete backoff event with jitter 1/2: the
first delay of a run is `min(5 * 2^0 + 1/2, 3600)` and is below 3601. -/
theorem C1_backoff_run_witness :
    get_repo_sbom [ApiEvent.resp r429] 0 0 (fun _ => (1 : ℚ)/2) 0
      = ([min (5 * 2 ^ 0 + (1 : ℚ)/2) 3600], .outOfEvents) ∧
    min (5 * 2 ^ 0 + (1 : ℚ)/2) 3600 < 3601 ∧
    0 < min (5 * 2 ^ 0 + (1 : ℚ)/2) 3600 := by
  have h := C1_backoff_run 0 (fun _ => (1 : ℚ)/2) (fun i => by norm_num)
  have h1 := h.1 [ApiEvent.resp r429] []
    (fun x hx => ⟨r429, by simpa using hx, by unfold handle_api_retry r429; norm_num⟩)
  refine ⟨?_, h.2.1 0, h.2.2.1 0⟩
  simpa [get_repo_sbom, List.range_succ] using h1

/-- A final REST listing page carrying one item and no `next` link. -/
def okOrgLast : Response := ⟨200, none, none, none, some ⟨none, none, ["repo1"]⟩, none⟩

/-- Claim C7 counterexample: on two consecutive exponential-backoff
sentinel retries the claim predicts sleeps `min(3600, 5*2^0) + jitter` and
`min(3600, 5*2^1) + jitter`, the second at least 10 since the jitter is
nonnegative.  The organization-listing paginator keeps no attempt counter
and sleeps a flat 5 seconds on every sentinel: both recorded sleeps are 5,
strictly below the claimed second delay. -/
theorem C7_counterexample :
    (get_all_organization_repos
        [ApiEvent.resp r429, ApiEvent.resp r429, ApiEvent.resp okOrgLast]
        "https://api.github.com/orgs/acme/repos" [] 0).sleeps = [5, 5] ∧
    (5 : ℚ) < min 3600 (5 * 2 ^ 1) + 0 := by
  refine ⟨by decide, ?_⟩
  rw [min_eq_right (by norm_num : (5 : ℚ) * 2 ^ 1 ≤ 3600)]
  norm_num

/-- Claim C7 (amended): during REST listing pagination, on every Retry
classification the paginator sleeps the server-computed delay when it is
positive and a flat 5 seconds otherwise (in particular on the
exponential-backoff sentinel −1 — it applies no exponential backoff), then
re-issues the same URL: the next request in the trace carries the same URL
and the accumulated items are unchanged. -/
theorem C7_retry_reissue (r : Response) (rest : List ApiEvent) (url : String)
    (acc : List String) (now d : ℚ)
    (hh : handle_api_retry r now = .classified true d) :
    get_all_organization_repos (ApiEvent.resp r :: rest) url acc now
      = ⟨url :: (get_all_organization_repos rest url acc now).reqs,
         (if 0 < d then d else 5) :: (get_all_organization_repos rest url acc now).sleeps,
         (get_all_organization_repos rest url acc now).repos,
         (get_all_organization_repos rest url acc now).outcome⟩ := by
  simp [get_all_organization_repos, hh]

/-- Witness for C7: a single sentinel retry sleeps 5 and re-issues the
same URL. -/
theorem C7_retry_reissue_witness :
    get_all_organization_repos [ApiEvent.resp r429] "https://api.github.com/orgs/acme/repos" [] 0
      = ⟨["https://api.github.com/orgs/acme/repos"], [5], [], .outOfEvents⟩ := by
  have h := C7_retry_reissue r429 [] "https://api.github.com/orgs/acme/repos" [] 0 (-1)
    (by unfold handle_api_retry r429; norm_num)
  rw [h]; decide

/-- A page event that keeps the GraphQL build loop going: either a retry
classification (the only continuing case among non-success outcomes, per
the rate-limit carve-out of the failure policy), or a successful page
whose `data.repository` is present and whose manifests connection reports
`hasNextPage`. -/
def gqlContinuing (r : Response) (now : ℚ) : Prop :=
  (∃ d, handle_api_retry r now = .classified true d) ∨
  (handle_api_retry r now = .classified false 0 ∧ ¬400 ≤ r.status ∧
    ∃ b repoNode, r.body = some b ∧ b.dataField = some (some repoNode) ∧
      ((repoNode.dependencyGraphManifests.getD ⟨[], none⟩).pageInfo.getD
          ⟨none, none⟩).hasNextPage.getD false = true)

/-- A failing event for the GraphQL build, in the claim's sense: a
network-level exception, or a non-retry-classified response whose body has
an `errors` array and no `data` key, or whose repository node is absent. -/
def gqlFailure (e : ApiEvent) (now : ℚ) : Prop :=
  e = .netErr ∨
  ∃ r, e = .resp r ∧ handle_api_retry r now = .classified false 0 ∧ ¬400 ≤ r.status ∧
    ∃ b, r.body = some b ∧
      ((b.errors ≠ none ∧ b.dataField = none) ∨ b.dataField = some none)

/-- Claim C4: if, after any number of continuing pages (each either a
rate-limit retry or a successful manifest page with a next page), the
GraphQL cache build meets a failure — a body with an `errors` array and no
`data` key, an absent repository node, or a network-level exception — the
whole build returns the empty mapping, whatever entries the earlier pages
had already put into the accumulator `acc`.  (A rate-limited `errors` body
is classified as a retry before the failure checks run, so the failing
response is required to be non-retry-classified, matching the claim's
"Retry outcomes are the only case that continues the loop".) -/
theorem C4_abort_empty (now : ℚ) (js : ℕ → ℚ) :
    ∀ (pre : List ApiEvent) (e : ApiEvent) (tail : List ApiEvent) (retries jIdx : ℕ)
      (acc : Cache),
      (∀ x ∈ pre, ∃ r, x = ApiEvent.resp r ∧ gqlContinuing r now) →
      gqlFailure e now →
      (get_graphql_license_cache (pre ++ e :: tail) retries jIdx js now acc).2
        = .cache [] := by
  intro pre
  induction pre with
  | nil =>
    intro e tail retries jIdx acc _ he
    rcases he with he | ⟨r, he, hh, hst, b, hb, hcond⟩
    · subst he; rfl
    · subst he
      rcases hcond with ⟨herr, hdf⟩ | hdf
      · simp [get_graphql_license_cache, hh, hst, hb, hdf]
      · simp [get_graphql_license_cache, hh, hst, hb, hdf]
  | cons x pre ih =>
    intro e tail retries jIdx acc hpre he
    obtain ⟨r, hx, hcont⟩ := hpre x (List.mem_cons_self x pre)
    subst hx
    have hrest : ∀ y ∈ pre, ∃ r, y = ApiEvent.resp r ∧ gqlContinuing r now :=
      fun y hy => hpre y (List.mem_cons_of_mem _ hy)
    rw [List.cons_append]
    rcases hcont with ⟨d, hh⟩ | ⟨hh, hst, b, repoNode, hb, hdf, hnext⟩
    · by_cases hd : d = -1
      · subst hd
        have step : (get_graphql_license_cache
              (ApiEvent.resp r :: (pre ++ e :: tail)) retries jIdx js now acc).2
            = (get_graphql_license_cache (pre ++ e :: tail)
                (retries + 1) (jIdx + 1) js now acc).2 := by
          simp [get_graphql_license_cache, hh]
        rw [step]
        exact ih e tail (retries + 1) (jIdx + 1) acc hrest he
      · have step : (get_graphql_license_cache
              (ApiEvent.resp r :: (pre ++ e :: tail)) retries jIdx js now acc).2
            = (get_graphql_license_cache (pre ++ e :: tail) 0 jIdx js now acc).2 := by
          simp [get_graphql_license_cache, hh, hd]
        rw [step]
        exact ih e tail 0 jIdx acc hrest he
    · have step : (get_graphql_license_cache
            (ApiEvent.resp r :: (pre ++ e :: tail)) retries jIdx js now acc).2
          = (get_graphql_license_cache (pre ++ e :: tail) 0 jIdx js now
              (addManifestDeps acc
                (repoNode.dependencyGraphManifests.getD ⟨[], none⟩))).2 := by
        simp [get_graphql_license_cache, hh, hst, hb, hdf, hnext]
      rw [step]
      exact ih e tail 0 jIdx _ hrest he

/-- A manifest whose single dependency node is `left-pad` with full
license info. -/
def manifestLP : Manifest :=
  ⟨some ⟨[some ⟨some "left-pad",
      some ⟨some "acme/left-pad",
            some ⟨some "MIT", some "MIT License", some "https://spdx.org/licenses/MIT"⟩⟩⟩]⟩⟩

/-- A successful GraphQL page carrying `manifestLP` and `hasNextPage = true`. -/
def goodGqlPage : Response :=
  ⟨200, none, none, none,
   some ⟨none, some (some ⟨some ⟨[manifestLP], some ⟨some "cursor1", some true⟩⟩⟩), []⟩,
   none⟩

/-- A 200 GraphQL reply whose body has a non-rate-limit `errors` array and
no `data` key. -/
def errGqlPage : Response :=
  ⟨200, none, none, none, some ⟨some [GqlErr.other], none, []⟩, none⟩

/-- Witness for C4: a good first page (which caches `left-pad`) followed
by an errors-and-no-data page yields the empty mapping; and the same
failing page discards even a preloaded accumulator. -/
theorem C4_abort_empty_witness :
    (get_graphql_license_cache [ApiEvent.resp goodGqlPage, ApiEvent.resp errGqlPage]
        0 0 (fun _ => 0) 0 []).2 = .cache [] ∧
    (get_graphql_license_cache [ApiEvent.resp errGqlPage]
        0 0 (fun _ => 0) 0 [("left-pad", sampleEntry)]).2 = .cache [] := by
  have hfail : gqlFailure (ApiEvent.resp errGqlPage) 0 :=
    Or.inr ⟨errGqlPage, rfl, rfl, by norm_num [errGqlPage],
      ⟨some [GqlErr.other], none, []⟩, rfl, Or.inl ⟨by decide, rfl⟩⟩
  constructor
  · exact C4_abort_empty 0 (fun _ => 0) [ApiEvent.resp goodGqlPage]
      (ApiEvent.resp errGqlPage) [] 0 0 []
      (fun x hx => ⟨goodGqlPage, by simpa using hx,
        Or.inr ⟨rfl, by norm_num [goodGqlPage],
          ⟨none, some (some ⟨some ⟨[manifestLP], some ⟨some "cursor1", some true⟩⟩⟩), []⟩,
          ⟨some ⟨[manifestLP], some ⟨some "cursor1", some true⟩⟩⟩, rfl, rfl, rfl⟩⟩)
      hfail
  · exact C4_abort_empty 0 (fun _ => 0) [] (ApiEvent.resp errGqlPage) [] 0 0
      [("left-pad", sampleEntry)] (fun x hx => by simp at hx) hfail

/-- The item array of a response's body (`response.json()` on a REST
listing page), empty when the body is absent. -/
def respItems (r : Response) : List String :=
  match r.body with
  | some b => b.items
  | none => []

/-- A listing page the fetch_deps organization loop treats as a success:
status 200 with a JSON body carrying no `errors` key. -/
def orgOkPage (r : Response) : Prop :=
  r.status = 200 ∧ ∃ b, r.body = some b ∧ b.errors = none

/-- A listing page `make_api_request` returns as a success: no
`Retry-After` header, a status below 400, and a JSON body. -/
def pagOkPage (r : Response) : Prop :=
  r.retryAfter = none ∧ r.status < 400 ∧ r.body ≠ none

/-- An `orgOkPage` that advertises a (truthy) next link. -/
def orgNextPage (r : Response) : Prop :=
  orgOkPage r ∧ ∃ u, r.linkNext = some u ∧ u ≠ ""

/-- A `pagOkPage` that advertises a (truthy) next link. -/
def pagNextPage (r : Response) : Prop :=
  pagOkPage r ∧ ∃ u, r.linkNext = some u ∧ u ≠ ""

/-- A nonempty sequence of pages of which every page satisfies `P`, each
except the last advertises a next link, and the last does not. -/
def chainOk (P : Response → Prop) : List Response → Prop
  | [] => False
  | [r] => P r ∧ r.linkNext = none
  | r :: rest => P r ∧ (∃ u, r.linkNext = some u ∧ u ≠ "") ∧ chainOk P rest

theorem org_ok_handle (r : Response) (now : ℚ) (h : orgOkPage r) :
    handle_api_retry r now = .classified false 0 := by
  obtain ⟨hst, b, hb, herr⟩ := h
  simp [handle_api_retry, hst, hb, herr]

theorem org_step_next (r : Response) (rest : List ApiEvent) (url : String) (acc : List String)
    (now : ℚ) (b : Body) (u : String)
    (hh : handle_api_retry r now = .classified false 0)
    (hst : ¬400 ≤ r.status) (hb : r.body = some b)
    (hlink : r.linkNext = some u) (hu : u ≠ "") :
    get_all_organization_repos (ApiEvent.resp r :: rest) url acc now
      = ⟨url :: (get_all_organization_repos rest u (acc ++ b.items) now).reqs,
         (get_all_organization_repos rest u (acc ++ b.items) now).sleeps,
         (get_all_organization_repos rest u (acc ++ b.items) now).repos,
         (get_all_organization_repos rest u (acc ++ b.items) now).outcome⟩ := by
  simp [get_all_organization_repos, hh, hst, hb, hlink, hu]

theorem org_step_last (r : Response) (rest : List ApiEvent) (url : String) (acc : List String)
    (now : ℚ) (b : Body)
    (hh : handle_api_retry r now = .classified false 0)
    (hst : ¬400 ≤ r.status) (hb : r.body = some b)
    (hlink : r.linkNext = none) :
    get_all_organization_repos (ApiEvent.resp r :: rest) url acc now
      = ⟨[url], [], acc ++ b.items, .finished⟩ := by
  simp [get_all_organization_repos, hh, hst, hb, hlink]

theorem org_good_run (now : ℚ) :
    ∀ rs : List Response, chainOk orgOkPage rs → ∀ url acc,
      (get_all_organization_repos (rs.map ApiEvent.resp) url acc now).repos
          = acc ++ (rs.map respItems).join ∧
      (get_all_organization_repos (rs.map ApiEvent.resp) url acc now).reqs.length
          = rs.length ∧
      (get_all_organization_repos (rs.map ApiEvent.resp) url acc now).outcome
          = .finished := by
  intro rs
  induction rs with
  | nil => intro h; exact h.elim
  | cons r rest ih =>
    intro h url acc
    cases rest with
    | nil =>
      simp only [chainOk] at h
      obtain ⟨hok, hlink⟩ := h
      obtain ⟨hst, b, hb, herr⟩ := hok
      have hh := org_ok_handle r now ⟨hst, b, hb, herr⟩
      rw [List.map_cons, List.map_nil,
        org_step_last r [] url acc now b hh (by rw [hst]; norm_num) hb hlink]
      simp [respItems, hb]
    | cons r2 rest2 =>
      simp only [chainOk] at h
      obtain ⟨hok, ⟨u, hlink, hu⟩, hchain⟩ := h
      obtain ⟨hst, b, hb, herr⟩ := hok
      have hh := org_ok_handle r now ⟨hst, b, hb, herr⟩
      have hrec := ih hchain u (acc ++ b.items)
      rw [List.map_cons,
        org_step_next r (List.map ApiEvent.resp (r2 :: rest2)) url acc now b u hh
          (by rw [hst]; norm_num) hb hlink hu]
      refine ⟨?_, ?_, ?_⟩
      · dsimp only
        rw [hrec.1]
        simp [respItems, hb, List.append_assoc]
      · dsimp only
        rw [List.length_cons, hrec.2.1]
        simp
      · exact hrec.2.2

theorem org_prefix_netErr (now : ℚ) :
    ∀ rs : List Response, (∀ r ∈ rs, orgNextPage r) → ∀ url acc tail,
      (get_all_organization_repos (rs.map ApiEvent.resp ++ ApiEvent.netErr :: tail)
          url acc now).repos = acc ++ (rs.map respItems).join ∧
      (get_all_organization_repos (rs.map ApiEvent.resp ++ ApiEvent.netErr :: tail)
          url acc now).outcome = .finished := by
  intro rs
  induction rs with
  | nil => intro _ url acc tail; simp [get_all_organization_repos]
  | cons r rest ih =>
    intro h url acc tail
    obtain ⟨⟨hst, b, hb, herr⟩, u, hlink, hu⟩ := h r (List.mem_cons_self r rest)
    have hh := org_ok_handle r now ⟨hst, b, hb, herr⟩
    have hrec := ih (fun y hy => h y (List.mem_cons_of_mem _ hy)) u (acc ++ b.items) tail
    rw [List.map_cons, List.cons_append,
      org_step_next r (List.map ApiEvent.resp rest ++ ApiEvent.netErr :: tail) url acc now b u
        hh (by rw [hst]; norm_num) hb hlink hu]
    refine ⟨?_, hrec.2⟩
    dsimp only
    rw [hrec.1]
    simp [respItems, hb, List.append_assoc]

theorem make_one_ok (r : Response) (now : ℚ) (hra : r.retryAfter = none)
    (hst : r.status < 400) :
    make_api_request [ApiEvent.resp r] 0 5 now = ([], .ok r) := by
  have h403 : ¬(r.status = 403 ∧ r.remaining = some 0) :=
    fun hc => by rw [hc.1] at hst; norm_num at hst
  simp [make_api_request, hra, h403, Nat.not_le.mpr hst]

theorem make_netErr5 (now : ℚ) :
    (make_api_request (List.replicate 5 ApiEvent.netErr) 0 5 now).2 = .raised := rfl

theorem pag_step_next (r : Response) (rest : List (List ApiEvent)) (now : ℚ)
    (acc : List String) (b : Body) (u : String)
    (hra : r.retryAfter = none) (hst : r.status < 400)
    (hb : r.body = some b) (hlink : r.linkNext = some u) (hu : u ≠ "") :
    get_paginated_data ([ApiEvent.resp r] :: rest) now acc
      = ((get_paginated_data rest now (acc ++ b.items)).1 + 1,
         (get_paginated_data rest now (acc ++ b.items)).2) := by
  simp [get_paginated_data, make_one_ok r now hra hst, hb, hlink, hu]

theorem pag_step_last (r : Response) (rest : List (List ApiEvent)) (now : ℚ)
    (acc : List String) (b : Body)
    (hra : r.retryAfter = none) (hst : r.status < 400)
    (hb : r.body = some b) (hlink : r.linkNext = none) :
    get_paginated_data ([ApiEvent.resp r] :: rest) now acc
      = (1, .finished (acc ++ b.items)) := by
  simp [get_paginated_data, make_one_ok r now hra hst, hb, hlink]

theorem pag_good_run (now : ℚ) :
    ∀ rs : List Response, chainOk pagOkPage rs → ∀ acc,
      get_paginated_data (rs.map fun r => [ApiEvent.resp r]) now acc
        = (rs.length, .finished (acc ++ (rs.map respItems).join)) := by
  intro rs
  induction rs with
  | nil => intro h; exact h.elim
  | cons r rest ih =>
    intro h acc
    cases rest with
    | nil =>
      simp only [chainOk] at h
      obtain ⟨⟨hra, hst, hbody⟩, hlink⟩ := h
      obtain ⟨b, hb⟩ := Option.ne_none_iff_exists'.mp hbody
      rw [List.map_cons, List.map_nil, pag_step_last r [] now acc b hra hst hb hlink]
      simp [respItems, hb]
    | cons r2 rest2 =>
      simp only [chainOk] at h
      obtain ⟨⟨hra, hst, hbody⟩, ⟨u, hlink, hu⟩, hchain⟩ := h
      obtain ⟨b, hb⟩ := Option.ne_none_iff_exists'.mp hbody
      have hrec := ih hchain (acc ++ b.items)
      rw [List.map_cons,
        pag_step_next r ((r2 :: rest2).map fun x => [ApiEvent.resp x]) now acc b u
          hra hst hb hlink hu, hrec]
      simp [respItems, hb, List.append_assoc, Nat.add_comm]

theorem pag_prefix_raised (now : ℚ) :
    ∀ rs : List Response, (∀ r ∈ rs, pagNextPage r) → ∀ acc tail,
      get_paginated_data ((rs.map fun r => [ApiEvent.resp r])
          ++ List.replicate 5 ApiEvent.netErr :: tail) now acc
        = (rs.length + 1, .raised) := by
  intro rs
  induction rs with
  | nil =>
    intro _ acc tail
    have h5 := make_netErr5 now
    simp only [List.replicate] at h5
    simp [get_paginated_data, h5]
  | cons r rest ih =>
    intro h acc tail
    obtain ⟨⟨hra, hst, hbody⟩, u, hlink, hu⟩ := h r (List.mem_cons_self r rest)
    obtain ⟨b, hb⟩ := Option.ne_none_iff_exists'.mp hbody
    have hrec := ih (fun y hy => h y (List.mem_cons_of_mem _ hy)) (acc ++ b.items) tail
    rw [List.map_cons, List.cons_append,
      pag_step_next r ((rest.map fun x => [ApiEvent.resp x])
          ++ List.replicate 5 ApiEvent.netErr :: tail) now acc b u hra hst hb hlink hu,
      hrec]
    simp

/-- A first listing page carrying one item and a next link, used for the
C6 counterexample. -/
def pageWithNext : Response :=
  ⟨200, none, none, none, some ⟨none, none, ["item1"]⟩, some "https://api.github.com/page2"⟩

/-- Claim C6 counterexample: the claim says a request that fails at the
network level after transport retries makes the listing terminate early
and return exactly the items already collected.  In `get_paginated_data`
(fetch_repos.py) a network failure on all five `make_api_request` attempts
re-raises the exception, which propagates uncaught: the outcome is a
raise, not a normal return of `["item1"]`. -/
theorem C6_counterexample :
    get_paginated_data [[ApiEvent.resp pageWithNext], List.replicate 5 ApiEvent.netErr] 0 []
        = (2, .raised) ∧
    PagOutcome.raised ≠ PagOutcome.finished ["item1"] :=
  ⟨rfl, by decide⟩

/-- Claim C6 (amended): for a sequence of listing pages of which each but
the last advertises a next link, both paginators return the concatenation
of the pages' item arrays in page order and issue exactly one request per
page — none after the page lacking a next link.  When a network failure
occurs, the fetch_deps organization listing terminates early and returns
exactly the items collected from the pages already fetched; the
fetch_repos `get_paginated_data`, however, propagates the exception raised
after `make_api_request`'s five attempts and returns nothing. -/
theorem C6_pagination (now : ℚ) :
    (∀ rs : List Response, chainOk orgOkPage rs → ∀ url,
        (get_all_organization_repos (rs.map ApiEvent.resp) url [] now).repos
            = (rs.map respItems).join ∧
        (get_all_organization_repos (rs.map ApiEvent.resp) url [] now).reqs.length
            = rs.length ∧
        (get_all_organization_repos (rs.map ApiEvent.resp) url [] now).outcome
            = .finished) ∧
    (∀ rs : List Response, chainOk pagOkPage rs →
        get_paginated_data (rs.map fun r => [ApiEvent.resp r]) now []
          = (rs.length, .finished ((rs.map respItems).join))) ∧
    (∀ rs : List Response, (∀ r ∈ rs, orgNextPage r) → ∀ url tail,
        (get_all_organization_repos (rs.map ApiEvent.resp ++ ApiEvent.netErr :: tail)
            url [] now).repos = (rs.map respItems).join ∧
        (get_all_organization_repos (rs.map ApiEvent.resp ++ ApiEvent.netErr :: tail)
            url [] now).outcome = .finished) ∧
    (∀ rs : List Response, (∀ r ∈ rs, pagNextPage r) → ∀ tail,
        get_paginated_data ((rs.map fun r => [ApiEvent.resp r])
            ++ List.replicate 5 ApiEvent.netErr :: tail) now []
          = (rs.length + 1, .raised)) := by
  refine ⟨fun rs hc url => ?_, fun rs hc => ?_, fun rs hc url tail => ?_, fun rs hc tail => ?_⟩
  · simpa using org_good_run now rs hc url []
  · simpa using pag_good_run now rs hc []
  · simpa using org_prefix_netErr now rs hc url [] tail
  · simpa using pag_prefix_raised now rs hc [] tail

/-- Witness for C6 at concrete pages: a single last page returns its item
in both paginators; a good page followed by five network failures makes
`get_paginated_data` raise after two requests. -/
theorem C6_pagination_witness :
    (get_all_organization_repos [ApiEvent.resp okOrgLast]
        "https://api.github.com/orgs/acme/repos" [] 0).repos = ["repo1"] ∧
    get_paginated_data [[ApiEvent.resp okOrgLast]] 0 [] = (1, .finished ["repo1"]) ∧
    get_paginated_data [[ApiEvent.resp pageWithNext], List.replicate 5 ApiEvent.netErr] 0 []
        = (2, .raised) := by
  have h := C6_pagination 0
  have horg := (h.1 [okOrgLast]
    ⟨⟨rfl, ⟨none, none, ["repo1"]⟩, rfl, rfl⟩, rfl⟩
    "https://api.github.com/orgs/acme/repos").1
  have hpag := h.2.1 [okOrgLast] ⟨⟨rfl, by decide, by decide⟩, rfl⟩
  have hraise := h.2.2.2 [pageWithNext]
    (fun r hr => by
      rw [List.mem_singleton.mp hr]
      exact ⟨⟨rfl, by decide, by decide⟩,
        "https://api.github.com/page2", rfl, by decide⟩) []
  refine ⟨?_, ?_, ?_⟩
  · simpa [respItems, okOrgLast] using horg
  · simpa [respItems, okOrgLast] using hpag
  · simpa using hraise

end Colophon
